import Mathlib

/-!
Verification of the sync/ingestion engine of `the-source`
(`src/backend/app/services/sync/base.py`, `raindrop.py`,
`src/backend/app/repositories/sync_repo.py`, `item_repo.py`).

Shallow embedding notes:
* A `sync_log` row (`SyncEntry`) keeps the fields the claims talk about:
  `id`, `source`, `status`, `items_synced`, `errors`.  Timestamps
  (`started_at` / `completed_at`) are elided: no claim mentions them.
* The item store is, for a fixed worker's `SOURCE_NAME`, the list of
  `source_id`s present in the `items` table for that source
  (`ItemRepository.get_existing_source_ids` returns exactly that set).
* `ItemRepository.create` can raise (validation / DB errors caught by
  `BaseSyncWorker._create_or_update_item`).  That environment behaviour is
  an input to the model: each candidate carries `createError : Option
  String`, `none` meaning the create succeeds, `some e` meaning it raises
  with message `e`.
* `Adapter._fetch_items` either returns a list of candidates together with
  the soft errors it accumulated while parsing (`Except.ok`), or raises a
  fetch-level fatal error (`Except.error msg`).
-/

namespace TheSource

/-- One row of the `sync_log` table (timestamps elided). -/
structure SyncEntry where
  id : Nat
  source : String
  status : String
  items_synced : Nat
  errors : Option String
deriving Repr, DecidableEq

/-- A candidate record as handed to `_create_or_update_item`:
its `source_id`, plus the behaviour of `ItemRepository.create` on it
(`none` = create succeeds, `some e` = create raises with message `e`). -/
structure Candidate where
  source_id : String
  createError : Option String
deriving Repr, DecidableEq

/-- The mutable per-run state of `BaseSyncWorker` during one sync, plus the
item store (list of `source_id`s already persisted for this source):
`_items_synced`, `_items_skipped`, `_errors`, `_existing_ids`. -/
structure WorkerState where
  itemsSynced : Nat
  itemsSkipped : Nat
  errors : List String
  existingIds : List String
  store : List String
deriving Repr, DecidableEq

/-- `BaseSyncWorker._create_or_update_item` (base.py lines 89-121): O(1)
duplicate check against `_existing_ids`; on a fresh id attempt the store
create; on success bump `_items_synced` and add the id to the set; on an
exception append one formatted soft error via `_add_error`. -/
def createOrUpdateItem (st : WorkerState) (c : Candidate) : WorkerState × Bool :=
  if c.source_id ∈ st.existingIds then
    ({ st with itemsSkipped := st.itemsSkipped + 1 }, false)
  else
    match c.createError with
    | some e =>
        ({ st with errors :=
            st.errors ++ ["Failed to create item " ++ c.source_id ++ ": " ++ e] },
         false)
    | none =>
        ({ st with
            store := st.store ++ [c.source_id],
            itemsSynced := st.itemsSynced + 1,
            existingIds := st.existingIds ++ [c.source_id] },
         true)

/-- The ingest loop of `BaseSyncWorker.sync` (base.py lines 203-211):
process candidates in order.  (The periodic progress logging is
observability only and has no state effect.) -/
def processItems (st : WorkerState) : List Candidate → WorkerState
  | [] => st
  | c :: cs => processItems (createOrUpdateItem st c).1 cs

/-- Effect of `SyncRepository.update_log_entry` (sync_repo.py lines
71-113) on one row: the `UPDATE ... WHERE id = ?` touches a row iff its id
matches; `status` is always written; `items_synced` and `errors` are
written only when the argument is not `None` (an absent `errors` leaves
the column untouched). -/
def applyUpdate (logId : Nat) (status : String) (itemsSynced : Option Nat)
    (errors : Option String) (e : SyncEntry) : SyncEntry :=
  if e.id = logId then
    { e with
        status := status,
        items_synced := itemsSynced.getD e.items_synced,
        errors := match errors with
          | some s => some s
          | none => e.errors }
  else e

/-- `SyncRepository.update_log_entry` (sync_repo.py lines 71-113): the SQL
`UPDATE sync_log SET ... WHERE id = ?` applied to every row of the table. -/
def updateLogEntry (log : List SyncEntry) (logId : Nat) (status : String)
    (itemsSynced : Option Nat) (errors : Option String) : List SyncEntry :=
  log.map (applyUpdate logId status itemsSynced errors)

/-- `SyncRepository.complete_sync` (sync_repo.py lines 115-130). -/
def completeSync (log : List SyncEntry) (logId : Nat) (itemsSynced : Nat)
    (errors : Option String) : List SyncEntry :=
  updateLogEntry log logId "completed" (some itemsSynced) errors

/-- `SyncRepository.fail_sync` (sync_repo.py lines 132-144): sets status
and error message only — `items_synced` is not passed, so the column keeps
the value written at creation time. -/
def failSync (log : List SyncEntry) (logId : Nat) (errorMessage : String) :
    List SyncEntry :=
  updateLogEntry log logId "failed" none (some errorMessage)

/-- `SyncRepository.is_sync_running` (sync_repo.py lines 186-203):
some row for the source has status `running`. -/
def isSyncRunning (log : List SyncEntry) (source : String) : Bool :=
  log.any fun e => e.source = source && e.status = "running"

/-- The fresh row `SyncRepository.create_log_entry` inserts (sync_repo.py
lines 34-55): status `running`, `items_synced = 0`, no errors.  Row ids are
assigned sequentially by SQLite (`lastrowid`), modelled as `log.length + 1`. -/
def newLogEntry (log : List SyncEntry) (source : String) : SyncEntry :=
  { id := log.length + 1, source := source, status := "running",
    items_synced := 0, errors := none }

/-- Persistent state seen by one worker: the sync log plus the item store
(the `source_id`s persisted for this worker's source). -/
structure SysState where
  log : List SyncEntry
  store : List String
deriving Repr, DecidableEq

/-- The dictionary `BaseSyncWorker.sync` returns. -/
structure SyncResult where
  success : Bool
  error : Option String
  itemsSynced : Nat
deriving Repr, DecidableEq

/-- `BaseSyncWorker.sync` (base.py lines 167-229).  Parameters stand for
the environment: `creds` is the result of `validate_credentials()`, and
`fetchResult` is the behaviour of `_fetch_items` — `Except.error msg` when
fetch raises a fatal error, `Except.ok (fetchErrors, items)` when it
returns `items` having accumulated soft errors `fetchErrors` via
`_add_error` (e.g. per-record parse failures). -/
def sync (source : String) (creds : Bool × String)
    (fetchResult : Except String (List String × List Candidate))
    (s : SysState) : SyncResult × SysState :=
  if isSyncRunning s.log source then
    ({ success := false,
       error := some ("Sync already running for " ++ source),
       itemsSynced := 0 }, s)
  else if !creds.1 then
    ({ success := false,
       error := some ("Credential validation failed: " ++ creds.2),
       itemsSynced := 0 }, s)
  else
    let logId := s.log.length + 1
    let log1 := s.log ++ [newLogEntry s.log source]
    match fetchResult with
    | Except.error msg =>
        ({ success := false, error := some msg, itemsSynced := 0 },
         { log := failSync log1 logId msg, store := s.store })
    | Except.ok (fetchErrors, items) =>
        let ws := processItems
          { itemsSynced := 0, itemsSkipped := 0, errors := fetchErrors,
            existingIds := s.store, store := s.store } items
        let errorsStr : Option String :=
          if ws.errors = [] then none
          else some (String.intercalate "\n" ws.errors)
        ({ success := true, error := none, itemsSynced := ws.itemsSynced },
         { log := completeSync log1 logId ws.itemsSynced errorsStr,
           store := ws.store })

/-- Number of `running` rows for a source (the quantity `is_sync_running`
tests for emptiness). -/
def runningCount (log : List SyncEntry) (source : String) : Nat :=
  (log.filter fun e => e.source = source && e.status = "running").length

/-- Coordinator-level operations on the sync log, as `BaseSyncWorker.sync`
performs them (base.py lines 176-229): `trigger` is the sequential
`is_sync_running` check followed by `create_log_entry` (lines 177, 194);
`complete` and `fail` are `complete_sync` / `fail_sync` applied to the
entry this coordinator created, which is still `running` — in the
single-process model only the creating coordinator finalizes an entry,
and it does so exactly once. -/
inductive LedgerStep : List SyncEntry → List SyncEntry → Prop
  | trigger (log : List SyncEntry) (source : String)
      (h : isSyncRunning log source = false) :
      LedgerStep log (log ++ [newLogEntry log source])
  | complete (log : List SyncEntry) (logId n : Nat) (er : Option String)
      (h : ∃ e ∈ log, e.id = logId ∧ e.status = "running") :
      LedgerStep log (completeSync log logId n er)
  | fail (log : List SyncEntry) (logId : Nat) (msg : String)
      (h : ∃ e ∈ log, e.id = logId ∧ e.status = "running") :
      LedgerStep log (failSync log logId msg)

/-- Sync logs reachable from an empty `sync_log` table by coordinator
operations. -/
inductive ReachableLog : List SyncEntry → Prop
  | init : ReachableLog []
  | step {log log' : List SyncEntry} :
      ReachableLog log → LedgerStep log log' → ReachableLog log'

/-! ### Raindrop adapter (`raindrop.py`): page-request retry loop and
pagination loop of `RaindropSyncWorker._fetch_items` (lines 185-281). -/

/-- Outcome of one HTTP attempt for a page request: a response with a
status code, or an `httpx.TimeoutException`. -/
inductive Attempt where
  | http (code : Nat)
  | timeout
deriving Repr, DecidableEq

/-- The transient statuses retried by the loop (raindrop.py line 223). -/
def retryableStatus (code : Nat) : Bool :=
  code = 502 || code = 503 || code = 504

/-- How the retry loop around one page request ends: a 200 response
(`ok`), the post-loop `RuntimeError("API error {status} after ...")` for a
non-200 (or absent) response (`apiError`), or a propagated
`httpx.TimeoutException` (`timeoutError`).  Both error outcomes abort
`_fetch_items`. -/
inductive RetryOutcome where
  | ok
  | apiError (code : Option Nat)
  | timeoutError
deriving Repr, DecidableEq

/-- Observable trace of the retry loop: how many requests were actually
issued, the backoff sleeps performed (in order), and the final outcome. -/
structure RetryTrace where
  calls : Nat
  waits : List Nat
  outcome : RetryOutcome
deriving Repr, DecidableEq

/-- The check after the `for attempt in range(MAX_RETRIES)` loop
(raindrop.py lines 241-245): non-200 (or missing) response raises. -/
def finalCheck : Option Nat → RetryOutcome
  | none => RetryOutcome.apiError none
  | some c => if c = 200 then RetryOutcome.ok else RetryOutcome.apiError (some c)

/-- The `for attempt in range(MAX_RETRIES)` body (raindrop.py lines
209-239), recursing on the number of remaining loop iterations.  A
502/503/504 response sleeps `(attempt + 1) * 5` seconds and continues; a
timeout sleeps a fixed 5 seconds and continues, except on the last
attempt where it re-raises; any other response breaks out of the loop and
is examined by `finalCheck`. -/
def retryGo (o : Nat → Attempt) (attempt : Nat) :
    Nat → Option Nat → RetryTrace
  | 0, lastResp => { calls := 0, waits := [], outcome := finalCheck lastResp }
  | remaining + 1, _lastResp =>
      match o attempt with
      | Attempt.timeout =>
          if remaining = 0 then
            { calls := 1, waits := [], outcome := RetryOutcome.timeoutError }
          else
            let t := retryGo o (attempt + 1) remaining _lastResp
            { calls := t.calls + 1, waits := 5 :: t.waits, outcome := t.outcome }
      | Attempt.http c =>
          if retryableStatus c then
            let t := retryGo o (attempt + 1) remaining (some c)
            { calls := t.calls + 1, waits := (attempt + 1) * 5 :: t.waits,
              outcome := t.outcome }
          else
            { calls := 1, waits := [],
              outcome := if c = 200 then RetryOutcome.ok
                else RetryOutcome.apiError (some c) }

/-- `RaindropSyncWorker.MAX_RETRIES` (raindrop.py line 22). -/
def MAX_RETRIES : Nat := 3

/-- The whole retry wrapper around one page request, with `o i` the
outcome of the `i`-th attempt. -/
def fetchPageRetry (o : Nat → Attempt) : RetryTrace :=
  retryGo o 0 MAX_RETRIES none

/-- Whether an attempt outcome is retried by the loop. -/
def isRetryableAttempt : Attempt → Bool
  | Attempt.timeout => true
  | Attempt.http c => retryableStatus c

/-- The sleep performed after retryable attempt number `n` (1-based):
`n * 5` seconds for a transient HTTP status, a fixed 5 seconds for a
timeout (raindrop.py lines 224 and 237). -/
def waitFor : Attempt → Nat → Nat
  | Attempt.timeout, _ => 5
  | Attempt.http _, n => n * 5

/-- One item of one page of the `/raindrops/0` response, with the
behaviour of `_parse_raindrop` on it: `Except.ok c` if it parses to `c`,
`Except.error e` if parsing raises with message `e`. -/
structure RawRaindrop where
  rid : String
  parse : Except String Candidate
deriving Repr

/-- `RaindropSyncWorker.MAX_PER_PAGE` (raindrop.py line 21). -/
def MAX_PER_PAGE : Nat := 50

/-- The per-page parse loop (raindrop.py lines 254-262): each item either
contributes a parsed candidate or appends one soft error via `_add_error`,
and the page's remaining items are still processed. -/
def parsePage : List RawRaindrop → List Candidate × List String
  | [] => ([], [])
  | r :: rest =>
      let (its, errs) := parsePage rest
      match r.parse with
      | Except.ok c => (c :: its, errs)
      | Except.error e =>
          (its, ("Failed to parse raindrop " ++ r.rid ++ ": " ++ e) :: errs)

/-- The `while True` pagination loop (raindrop.py lines 203-273), with
every page request assumed to return 200 and `pages p` the body of page
`p`: an empty page breaks before parsing; a short page (fewer than
`MAX_PER_PAGE` items) is parsed and then the loop breaks; otherwise the
loop continues with the next page.  `fuel` bounds the number of
iterations; `none` means the loop did not finish within `fuel` pages. -/
def fetchPagesGo (pages : Nat → List RawRaindrop) :
    Nat → Nat → Option (List Candidate × List String)
  | _, 0 => none
  | p, fuel + 1 =>
      let body := pages p
      if body.length = 0 then some ([], [])
      else
        let (its, errs) := parsePage body
        if body.length < MAX_PER_PAGE then some (its, errs)
        else
          match fetchPagesGo pages (p + 1) fuel with
          | none => none
          | some (its2, errs2) => some (its ++ its2, errs ++ errs2)

/-- Successfully parsed candidates of one page body, in order. -/
def pageOks (body : List RawRaindrop) : List Candidate :=
  body.filterMap fun r =>
    match r.parse with
    | Except.ok c => some c
    | Except.error _ => none

/-- Soft parse-error messages of one page body, in order. -/
def pageErrs (body : List RawRaindrop) : List String :=
  body.filterMap fun r =>
    match r.parse with
    | Except.ok _ => none
    | Except.error e =>
        some ("Failed to parse raindrop " ++ r.rid ++ ": " ++ e)

/-! ## Helper lemmas -/

lemma updateLogEntry_of_forall_ne (log : List SyncEntry) (logId : Nat)
    (status : String) (n : Option Nat) (er : Option String)
    (h : ∀ e ∈ log, e.id ≠ logId) :
    updateLogEntry log logId status n er = log := by
  induction log with
  | nil => rfl
  | cons e l ih =>
      have he : e.id ≠ logId := h e (List.mem_cons_self e l)
      have hl : ∀ x ∈ l, x.id ≠ logId := fun x hx => h x (List.mem_cons_of_mem e hx)
      simp [updateLogEntry, applyUpdate, he] at ih ⊢
      exact ih hl

lemma updateLogEntry_append (l1 l2 : List SyncEntry) (logId : Nat)
    (status : String) (n : Option Nat) (er : Option String) :
    updateLogEntry (l1 ++ l2) logId status n er =
      updateLogEntry l1 logId status n er ++ updateLogEntry l2 logId status n er :=
  List.map_append _ _ _

lemma forall_id_ne_succ_length (log : List SyncEntry)
    (hid : ∀ e ∈ log, e.id ≤ log.length) :
    ∀ e ∈ log, e.id ≠ log.length + 1 :=
  fun e he => Nat.ne_of_lt (Nat.lt_succ_of_le (hid e he))

lemma failSync_fresh (log : List SyncEntry) (source msg : String)
    (hid : ∀ e ∈ log, e.id ≤ log.length) :
    failSync (log ++ [newLogEntry log source]) (log.length + 1) msg =
      log ++ [{ id := log.length + 1, source := source, status := "failed",
                items_synced := 0, errors := some msg }] := by
  unfold failSync
  rw [updateLogEntry_append,
    updateLogEntry_of_forall_ne _ _ _ _ _ (forall_id_ne_succ_length log hid)]
  simp [updateLogEntry, applyUpdate, newLogEntry]

lemma completeSync_fresh (log : List SyncEntry) (source : String) (n : Nat)
    (er : Option String) (hid : ∀ e ∈ log, e.id ≤ log.length) :
    completeSync (log ++ [newLogEntry log source]) (log.length + 1) n er =
      log ++ [{ id := log.length + 1, source := source, status := "completed",
                items_synced := n, errors := er }] := by
  unfold completeSync
  rw [updateLogEntry_append,
    updateLogEntry_of_forall_ne _ _ _ _ _ (forall_id_ne_succ_length log hid)]
  cases er <;> simp [updateLogEntry, applyUpdate, newLogEntry]

lemma runningCount_append (l1 l2 : List SyncEntry) (source : String) :
    runningCount (l1 ++ l2) source =
      runningCount l1 source + runningCount l2 source := by
  simp [runningCount, List.filter_append]

lemma isSyncRunning_eq_false_iff (log : List SyncEntry) (source : String) :
    isSyncRunning log source = false ↔ runningCount log source = 0 := by
  simp [isSyncRunning, runningCount, List.any_eq_false, List.filter_eq_nil_iff]

lemma filter_length_map_le {α : Type} (f : α → α) (p : α → Bool) (l : List α)
    (h : ∀ a, p (f a) = true → p a = true) :
    (List.filter p (l.map f)).length ≤ (List.filter p l).length := by
  induction l with
  | nil => simp
  | cons a l ih =>
      simp only [List.map_cons, List.filter_cons]
      by_cases hfa : p (f a) = true
      · simp only [hfa, h a hfa, if_true, List.length_cons]
        omega
      · have hfa' : p (f a) = false := by simpa using hfa
        by_cases hpa : p a = true
        · simp [hfa', hpa]
          omega
        · have hpa' : p a = false := by simpa using hpa
          simp [hfa', hpa']
          omega

lemma runningCount_updateLogEntry_le (log : List SyncEntry) (logId : Nat)
    (status : String) (n : Option Nat) (er : Option String) (source : String)
    (hst : status ≠ "running") :
    runningCount (updateLogEntry log logId status n er) source ≤
      runningCount log source := by
  unfold runningCount updateLogEntry
  apply filter_length_map_le
  intro e hpe
  by_cases hid : e.id = logId
  · exfalso
    simp only [applyUpdate, hid, if_true, Bool.and_eq_true,
      decide_eq_true_eq] at hpe
    exact hst hpe.2
  · simpa [applyUpdate, hid] using hpe

/-- Row ids in the sync log are positional (SQLite assigns `lastrowid`
sequentially and rows are never deleted by the coordinator). -/
def idsSequential (log : List SyncEntry) : Prop :=
  ∀ i (h : i < log.length), (log.get ⟨i, h⟩).id = i + 1

lemma updateLogEntry_length (log : List SyncEntry) (logId : Nat)
    (status : String) (n : Option Nat) (er : Option String) :
    (updateLogEntry log logId status n er).length = log.length :=
  List.length_map _ _

lemma applyUpdate_id (logId : Nat) (st : String) (n : Option Nat)
    (er : Option String) (e : SyncEntry) :
    (applyUpdate logId st n er e).id = e.id := by
  unfold applyUpdate
  split <;> rfl

lemma updateLogEntry_get (log : List SyncEntry) (logId : Nat) (st : String)
    (n : Option Nat) (er : Option String) (i : Nat)
    (h : i < log.length) (h' : i < (updateLogEntry log logId st n er).length) :
    (updateLogEntry log logId st n er).get ⟨i, h'⟩ =
      applyUpdate logId st n er (log.get ⟨i, h⟩) := by
  simp only [updateLogEntry, List.get_eq_getElem]
  exact List.getElem_map _

lemma reachable_idsSequential (log : List SyncEntry) (h : ReachableLog log) :
    idsSequential log := by
  induction h with
  | init => intro i hi; simp at hi
  | step hr hs ih =>
      cases hs with
      | trigger s0 hnot =>
          rename_i lpre
          intro i hi
          rcases Nat.lt_or_ge i lpre.length with hlt | hge
          · have hh := ih i hlt
            simp only [List.get_eq_getElem] at hh ⊢
            rw [List.getElem_append_left hlt]
            exact hh
          · have hlen : i < lpre.length + 1 := by simpa using hi
            have hieq : i = lpre.length := by omega
            subst hieq
            simp only [List.get_eq_getElem]
            rw [List.getElem_concat_length lpre _ lpre.length rfl]
            rfl
      | complete logId n er hex =>
          rename_i lpre
          intro i hi
          have hi2 : i < (updateLogEntry lpre logId "completed" (some n) er).length := hi
          have hlen : i < lpre.length := by
            simpa [updateLogEntry_length] using hi2
          show ((updateLogEntry lpre logId "completed" (some n) er).get
            ⟨i, hi2⟩).id = i + 1
          rw [updateLogEntry_get lpre logId _ _ _ i hlen hi2, applyUpdate_id]
          exact ih i hlen
      | fail logId msg hex =>
          rename_i lpre
          intro i hi
          have hi2 : i < (updateLogEntry lpre logId "failed" none (some msg)).length := hi
          have hlen : i < lpre.length := by
            simpa [updateLogEntry_length] using hi2
          show ((updateLogEntry lpre logId "failed" none (some msg)).get
            ⟨i, hi2⟩).id = i + 1
          rw [updateLogEntry_get lpre logId _ _ _ i hlen hi2, applyUpdate_id]
          exact ih i hlen

lemma updateLogEntry_step_analysis (l : List SyncEntry) (logId : Nat)
    (st : String) (n : Option Nat) (er : Option String)
    (hseq : idsSequential l)
    (hex : ∃ e ∈ l, e.id = logId ∧ e.status = "running")
    (i : Nat) (h : i < l.length)
    (h' : i < (updateLogEntry l logId st n er).length) :
    (updateLogEntry l logId st n er).get ⟨i, h'⟩ = l.get ⟨i, h⟩ ∨
    ((l.get ⟨i, h⟩).status = "running" ∧
      ((updateLogEntry l logId st n er).get ⟨i, h'⟩).status = st) := by
  rw [updateLogEntry_get l logId st n er i h h']
  by_cases hid : (l.get ⟨i, h⟩).id = logId
  · right
    refine ⟨?_, ?_⟩
    · rcases hex with ⟨e, he, heid, hest⟩
      rcases List.mem_iff_get.1 he with ⟨⟨j, hj⟩, hget⟩
      have hj1 : j + 1 = logId := by
        rw [← heid, ← hget]
        exact (hseq j hj).symm
      have hi1 : i + 1 = logId := by
        rw [← hid]
        exact (hseq i h).symm
      have hik : i = j := by omega
      subst hik
      have hie : l.get ⟨i, h⟩ = e := hget
      rw [hie]
      exact hest
    · simp only [List.get_eq_getElem] at hid
      simp [applyUpdate, hid]
  · left
    simp only [List.get_eq_getElem] at hid
    simp [applyUpdate, hid]

lemma createOrUpdateItem_store_mono (st : WorkerState) (c : Candidate)
    (x : String) (hx : x ∈ st.store) : x ∈ (createOrUpdateItem st c).1.store := by
  unfold createOrUpdateItem
  by_cases h : c.source_id ∈ st.existingIds
  · simpa [h] using hx
  · cases hc : c.createError with
    | none =>
        simp only [h, if_false, hc, List.mem_append]
        exact Or.inl hx
    | some e => simpa [h, hc] using hx

lemma processItems_store_mono (items : List Candidate) (st : WorkerState)
    (x : String) (hx : x ∈ st.store) : x ∈ (processItems st items).store := by
  induction items generalizing st with
  | nil => exact hx
  | cons c cs ih => exact ih _ (createOrUpdateItem_store_mono st c x hx)

lemma processItems_covers (items : List Candidate) (st : WorkerState)
    (hsub : ∀ x ∈ st.existingIds, x ∈ st.store)
    (hok : ∀ c ∈ items, c.createError = none) :
    ∀ c ∈ items, c.source_id ∈ (processItems st items).store := by
  induction items generalizing st with
  | nil => intro c hc; cases hc
  | cons c cs ih =>
      have hsub' : ∀ x ∈ (createOrUpdateItem st c).1.existingIds,
          x ∈ (createOrUpdateItem st c).1.store := by
        intro x hx
        unfold createOrUpdateItem at hx ⊢
        by_cases h : c.source_id ∈ st.existingIds
        · simp only [h, if_true] at hx ⊢
          exact hsub x hx
        · cases hc2 : c.createError with
          | none =>
              simp only [h, if_false, hc2, List.mem_append,
                List.mem_singleton] at hx ⊢
              rcases hx with hx | hx
              · exact Or.inl (hsub x hx)
              · exact Or.inr hx
          | some e =>
              simp only [h, if_false, hc2] at hx ⊢
              exact hsub x hx
      intro d hd
      rcases List.mem_cons.1 hd with hdc | hdcs
      · subst hdc
        show d.source_id ∈ (processItems (createOrUpdateItem st d).1 cs).store
        apply processItems_store_mono
        unfold createOrUpdateItem
        by_cases h : d.source_id ∈ st.existingIds
        · simpa [h] using hsub _ h
        · have hce := hok d (List.mem_cons_self d cs)
          simp [h, hce]
      · exact ih _ hsub' (fun x hx => hok x (List.mem_cons_of_mem c hx)) d hdcs

lemma processItems_all_skipped (items : List Candidate) (st : WorkerState)
    (hall : ∀ c ∈ items, c.source_id ∈ st.existingIds) :
    (processItems st items).itemsSynced = st.itemsSynced := by
  induction items generalizing st with
  | nil => rfl
  | cons c cs ih =>
      have hc := hall c (List.mem_cons_self c cs)
      have hstep : (createOrUpdateItem st c).1 =
          { st with itemsSkipped := st.itemsSkipped + 1 } := by
        simp [createOrUpdateItem, hc]
      show (processItems (createOrUpdateItem st c).1 cs).itemsSynced =
        st.itemsSynced
      rw [hstep]
      exact ih _ (fun d hd => hall d (List.mem_cons_of_mem c hd))

lemma isSyncRunning_append (l1 l2 : List SyncEntry) (source : String) :
    isSyncRunning (l1 ++ l2) source =
      (isSyncRunning l1 source || isSyncRunning l2 source) := by
  simp [isSyncRunning, List.any_append]

lemma sync_ok_fst (source : String) (creds : Bool × String)
    (fe : List String) (items : List Candidate) (s : SysState)
    (hrun : isSyncRunning s.log source = false) (hcred : creds.1 = true) :
    (sync source creds (Except.ok (fe, items)) s).1 =
      { success := true, error := none,
        itemsSynced := (processItems
          { itemsSynced := 0, itemsSkipped := 0, errors := fe,
            existingIds := s.store, store := s.store } items).itemsSynced } := by
  simp only [sync, hrun, hcred, Bool.not_true, Bool.false_eq_true, if_false]

lemma sync_ok_store (source : String) (creds : Bool × String)
    (fe : List String) (items : List Candidate) (s : SysState)
    (hrun : isSyncRunning s.log source = false) (hcred : creds.1 = true) :
    (sync source creds (Except.ok (fe, items)) s).2.store =
      (processItems
        { itemsSynced := 0, itemsSkipped := 0, errors := fe,
          existingIds := s.store, store := s.store } items).store := by
  simp only [sync, hrun, hcred, Bool.not_true, Bool.false_eq_true, if_false]

lemma sync_ok_log (source : String) (creds : Bool × String)
    (fe : List String) (items : List Candidate) (s : SysState)
    (hrun : isSyncRunning s.log source = false) (hcred : creds.1 = true) :
    (sync source creds (Except.ok (fe, items)) s).2.log =
      completeSync (s.log ++ [newLogEntry s.log source]) (s.log.length + 1)
        (processItems
          { itemsSynced := 0, itemsSkipped := 0, errors := fe,
            existingIds := s.store, store := s.store } items).itemsSynced
        (if (processItems
              { itemsSynced := 0, itemsSkipped := 0, errors := fe,
                existingIds := s.store, store := s.store } items).errors = []
         then none
         else some (String.intercalate "\n" (processItems
            { itemsSynced := 0, itemsSkipped := 0, errors := fe,
              existingIds := s.store, store := s.store } items).errors)) := by
  simp only [sync, hrun, hcred, Bool.not_true, Bool.false_eq_true, if_false]

lemma retryGo_succ_timeout_last (o : Nat → Attempt) (attempt : Nat)
    (lastResp : Option Nat) (h : o attempt = Attempt.timeout) :
    retryGo o attempt 1 lastResp =
      { calls := 1, waits := [], outcome := RetryOutcome.timeoutError } := by
  conv_lhs => unfold retryGo
  rw [h]
  rfl

lemma retryGo_succ_timeout (o : Nat → Attempt) (attempt remaining : Nat)
    (lastResp : Option Nat) (h : o attempt = Attempt.timeout)
    (hr : remaining ≠ 0) :
    retryGo o attempt (remaining + 1) lastResp =
      { calls := (retryGo o (attempt + 1) remaining lastResp).calls + 1,
        waits := 5 :: (retryGo o (attempt + 1) remaining lastResp).waits,
        outcome := (retryGo o (attempt + 1) remaining lastResp).outcome } := by
  conv_lhs => unfold retryGo
  rw [h]
  simp [hr]

lemma retryGo_succ_retryable (o : Nat → Attempt) (attempt remaining : Nat)
    (lastResp : Option Nat) (c : Nat) (h : o attempt = Attempt.http c)
    (hc : retryableStatus c = true) :
    retryGo o attempt (remaining + 1) lastResp =
      { calls := (retryGo o (attempt + 1) remaining (some c)).calls + 1,
        waits := (attempt + 1) * 5 ::
          (retryGo o (attempt + 1) remaining (some c)).waits,
        outcome := (retryGo o (attempt + 1) remaining (some c)).outcome } := by
  conv_lhs => unfold retryGo
  rw [h]
  simp [hc]

lemma retryGo_succ_break (o : Nat → Attempt) (attempt remaining : Nat)
    (lastResp : Option Nat) (c : Nat) (h : o attempt = Attempt.http c)
    (hc : retryableStatus c = false) :
    retryGo o attempt (remaining + 1) lastResp =
      { calls := 1, waits := [],
        outcome := if c = 200 then RetryOutcome.ok
          else RetryOutcome.apiError (some c) } := by
  conv_lhs => unfold retryGo
  rw [h]
  simp [hc]

lemma retryable_ne_200 (c : Nat) (h : retryableStatus c = true) : c ≠ 200 := by
  simp only [retryableStatus, Bool.or_eq_true, decide_eq_true_eq] at h
  omega

lemma parsePage_eq (body : List RawRaindrop) :
    parsePage body = (pageOks body, pageErrs body) := by
  induction body with
  | nil => rfl
  | cons r rest ih =>
      cases hp : r.parse <;> simp [parsePage, pageOks, pageErrs, hp, ih]

lemma fetchPagesGo_empty (pages : Nat → List RawRaindrop) (p fuel : Nat)
    (h : (pages p).length = 0) :
    fetchPagesGo pages p (fuel + 1) = some ([], []) := by
  conv_lhs => unfold fetchPagesGo
  simp [h]

lemma fetchPagesGo_short (pages : Nat → List RawRaindrop) (p fuel : Nat)
    (h0 : (pages p).length ≠ 0)
    (hs : (pages p).length < MAX_PER_PAGE) :
    fetchPagesGo pages p (fuel + 1) =
      some (pageOks (pages p), pageErrs (pages p)) := by
  conv_lhs => unfold fetchPagesGo
  simp [h0, hs, parsePage_eq]

lemma fetchPagesGo_full (pages : Nat → List RawRaindrop) (p fuel : Nat)
    (h0 : (pages p).length ≠ 0)
    (hs : ¬ (pages p).length < MAX_PER_PAGE) :
    fetchPagesGo pages p (fuel + 1) =
      match fetchPagesGo pages (p + 1) fuel with
      | none => none
      | some (its2, errs2) =>
          some (pageOks (pages p) ++ its2, pageErrs (pages p) ++ errs2) := by
  conv_lhs => unfold fetchPagesGo
  simp [h0, hs, parsePage_eq]

lemma flatten_range_shift {α : Type} (g : Nat → List α) (n : Nat) :
    ((List.range (n + 1 + 1)).map g).flatten =
      g 0 ++ ((List.range (n + 1)).map fun k => g (k + 1)).flatten := by
  rw [List.range_succ_eq_map]
  simp [Function.comp_def]

lemma fetchPagesGo_spec (pages : Nat → List RawRaindrop) (n : Nat) :
    ∀ p fuel, (pages (p + n)).length < MAX_PER_PAGE →
    (∀ m, m < n → ¬ (pages (p + m)).length < MAX_PER_PAGE) →
    n < fuel →
    fetchPagesGo pages p fuel =
      some (((List.range (n + 1)).map fun k => pageOks (pages (p + k))).flatten,
            ((List.range (n + 1)).map fun k => pageErrs (pages (p + k))).flatten)
    := by
  induction n with
  | zero =>
      intro p fuel hshort hfull hfuel
      obtain ⟨f, rfl⟩ : ∃ f, fuel = f + 1 := ⟨fuel - 1, by omega⟩
      by_cases h0 : (pages p).length = 0
      · rw [fetchPagesGo_empty pages p f h0]
        have hpn : pages p = [] := List.length_eq_zero.1 h0
        simp [hpn, pageOks, pageErrs]
      · rw [fetchPagesGo_short pages p f h0 (by simpa using hshort)]
        simp [List.range_succ]
  | succ n ih =>
      intro p fuel hshort hfull hfuel
      obtain ⟨f, rfl⟩ : ∃ f, fuel = f + 1 := ⟨fuel - 1, by omega⟩
      have hful0 : ¬ (pages p).length < MAX_PER_PAGE := by
        simpa using hfull 0 (Nat.succ_pos n)
      have h0 : (pages p).length ≠ 0 := by
        intro h
        apply hful0
        rw [h]
        decide
      rw [fetchPagesGo_full pages p f h0 hful0]
      have hrec := ih (p + 1) f
        (by
          have : p + 1 + n = p + (n + 1) := by omega
          rw [this]
          exact hshort)
        (by
          intro m hm
          have : p + 1 + m = p + (m + 1) := by omega
          rw [this]
          exact hfull (m + 1) (by omega))
        (by omega)
      rw [hrec]
      dsimp only
      rw [flatten_range_shift (fun k => pageOks (pages (p + k))) n,
        flatten_range_shift (fun k => pageErrs (pages (p + k))) n]
      have hmap1 : ((List.range (n + 1)).map
            fun k => pageOks (pages (p + 1 + k))) =
          ((List.range (n + 1)).map fun k => pageOks (pages (p + (k + 1)))) :=
        List.map_congr_left fun k _ => by
          have harg : p + 1 + k = p + (k + 1) := by omega
          rw [harg]
      have hmap2 : ((List.range (n + 1)).map
            fun k => pageErrs (pages (p + 1 + k))) =
          ((List.range (n + 1)).map fun k => pageErrs (pages (p + (k + 1)))) :=
        List.map_congr_left fun k _ => by
          have harg : p + 1 + k = p + (k + 1) := by omega
          rw [harg]
      rw [hmap1, hmap2]
      simp only [Nat.add_zero]

/-! ## Theorems -/

/-- C1: a run aborted because `_fetch_items` raised a fatal error ends with
a persisted record `status="failed"`, `errors` equal to the error's
message, and `items_synced` equal to the number of items created before
the failure — which is zero, since `_fetch_items` returns the whole
candidate list before the ingest loop makes any store call; the item store
is untouched (in particular nothing is rolled back). -/
theorem fetch_fatal_marks_run_failed (source : String) (creds : Bool × String)
    (msg : String) (s : SysState)
    (hrun : isSyncRunning s.log source = false)
    (hcred : creds.1 = true)
    (hid : ∀ e ∈ s.log, e.id ≤ s.log.length) :
    (sync source creds (Except.error msg) s).2.log =
      s.log ++ [{ id := s.log.length + 1, source := source, status := "failed",
                  items_synced := 0, errors := some msg }] ∧
    (sync source creds (Except.error msg) s).2.store = s.store ∧
    (sync source creds (Except.error msg) s).1 =
      { success := false, error := some msg, itemsSynced := 0 } := by
  have h := failSync_fresh s.log source msg hid
  simp [sync, hrun, hcred, h]

/-- C1 witness: a concrete fetch-fatal run against an empty log and a store
holding one earlier item. -/
theorem fetch_fatal_marks_run_failed_witness :
    (sync "raindrop" (true, "ok") (Except.error "Raindrop API timeout")
        ⟨[], ["b"]⟩).2.log =
      [] ++ [{ id := 1, source := "raindrop", status := "failed",
               items_synced := 0, errors := some "Raindrop API timeout" }] ∧
    (sync "raindrop" (true, "ok") (Except.error "Raindrop API timeout")
        ⟨[], ["b"]⟩).2.store = ["b"] ∧
    (sync "raindrop" (true, "ok") (Except.error "Raindrop API timeout")
        ⟨[], ["b"]⟩).1 =
      { success := false, error := some "Raindrop API timeout",
        itemsSynced := 0 } :=
  fetch_fatal_marks_run_failed "raindrop" (true, "ok") "Raindrop API timeout"
    ⟨[], ["b"]⟩ rfl rfl (by simp)

/-- C3: processing the candidate list `[{id:"a"},{id:"b"},{id:"a"}]` with
the duplicate index preloaded to `{"b"}` and every store create succeeding
ends with `items_ingested == 1` and `skipped == 2`: the pre-existing
duplicate `"b"` and the intra-batch repeat of `"a"` are skipped without a
store call, and the one successful create of `"a"` adds it to the index
(and to the store). -/
theorem ingest_dedup_batch_scenario :
    let st0 : WorkerState :=
      { itemsSynced := 0, itemsSkipped := 0, errors := [],
        existingIds := ["b"], store := ["b"] }
    let result := processItems st0
      [⟨"a", none⟩, ⟨"b", none⟩, ⟨"a", none⟩]
    result.itemsSynced = 1 ∧ result.itemsSkipped = 2 ∧
      result.errors = [] ∧ result.store = ["b", "a"] := by
  decide

/-- C9: one `_create_or_update_item` step changes exactly one of the three
run accumulators by exactly one: a duplicate increments only `skipped`
(index, store, synced, errors unchanged); a successful create increments
only `synced` and adds the id to the index and the store (skipped, errors
unchanged); a create that raises appends exactly one message to the error
list (counters, index, store unchanged). -/
theorem ingest_step_cases (st : WorkerState) (c : Candidate) :
    (c.source_id ∈ st.existingIds ∧
      (createOrUpdateItem st c).1.itemsSkipped = st.itemsSkipped + 1 ∧
      (createOrUpdateItem st c).1.itemsSynced = st.itemsSynced ∧
      (createOrUpdateItem st c).1.errors = st.errors ∧
      (createOrUpdateItem st c).1.existingIds = st.existingIds ∧
      (createOrUpdateItem st c).1.store = st.store) ∨
    (c.source_id ∉ st.existingIds ∧ c.createError = none ∧
      (createOrUpdateItem st c).1.itemsSynced = st.itemsSynced + 1 ∧
      (createOrUpdateItem st c).1.itemsSkipped = st.itemsSkipped ∧
      (createOrUpdateItem st c).1.errors = st.errors ∧
      (createOrUpdateItem st c).1.existingIds = st.existingIds ++ [c.source_id] ∧
      (createOrUpdateItem st c).1.store = st.store ++ [c.source_id]) ∨
    (c.source_id ∉ st.existingIds ∧ (∃ e, c.createError = some e ∧
      (createOrUpdateItem st c).1.errors =
        st.errors ++ ["Failed to create item " ++ c.source_id ++ ": " ++ e]) ∧
      (createOrUpdateItem st c).1.itemsSynced = st.itemsSynced ∧
      (createOrUpdateItem st c).1.itemsSkipped = st.itemsSkipped ∧
      (createOrUpdateItem st c).1.existingIds = st.existingIds ∧
      (createOrUpdateItem st c).1.store = st.store) := by
  by_cases h : c.source_id ∈ st.existingIds
  · left
    refine ⟨h, ?_, ?_, ?_, ?_, ?_⟩ <;> simp [createOrUpdateItem, h]
  · cases hc : c.createError with
    | none =>
        right; left
        refine ⟨h, rfl, ?_, ?_, ?_, ?_, ?_⟩ <;> simp [createOrUpdateItem, h, hc]
    | some e =>
        right; right
        refine ⟨h, ⟨e, rfl, ?_⟩, ?_, ?_, ?_, ?_⟩ <;>
          simp [createOrUpdateItem, h, hc]

/-- C4: `sync` checks its preconditions in order and creates no run record
when either fails.  If a run for the source is already `running`, it
returns a not-started result with the already-running message, leaves the
state untouched, and does not consult credentials (the outcome is
identical for any credential result and any fetch behaviour).  If nothing
is running but credential validation fails, it returns a not-started
result with the credential message and leaves the state untouched. -/
theorem trigger_preconditions (source : String) (creds creds' : Bool × String)
    (fetchResult fetchResult' : Except String (List String × List Candidate))
    (s : SysState) :
    (isSyncRunning s.log source = true →
      sync source creds fetchResult s =
        ({ success := false,
           error := some ("Sync already running for " ++ source),
           itemsSynced := 0 }, s) ∧
      sync source creds fetchResult s = sync source creds' fetchResult' s) ∧
    (isSyncRunning s.log source = false → creds.1 = false →
      sync source creds fetchResult s =
        ({ success := false,
           error := some ("Credential validation failed: " ++ creds.2),
           itemsSynced := 0 }, s)) := by
  constructor
  · intro hrun
    constructor <;> simp [sync, hrun]
  · intro hrun hcred
    simp [sync, hrun, hcred]

/-- C4 witness: with a running raindrop entry in the log, `sync` rejects
with the already-running message regardless of credentials; with an empty
log and failing credentials, it rejects with the credential message.  The
state is returned unchanged in both cases. -/
theorem trigger_preconditions_witness :
    (sync "raindrop" (true, "ok") (Except.ok ([], []))
        ⟨[{ id := 1, source := "raindrop", status := "running",
            items_synced := 0, errors := none }], []⟩ =
      ({ success := false,
         error := some ("Sync already running for " ++ "raindrop"),
         itemsSynced := 0 },
       ⟨[{ id := 1, source := "raindrop", status := "running",
           items_synced := 0, errors := none }], []⟩)) ∧
    (sync "raindrop" (false, "no token") (Except.ok ([], [])) ⟨[], []⟩ =
      ({ success := false,
         error := some ("Credential validation failed: " ++ "no token"),
         itemsSynced := 0 }, ⟨[], []⟩)) :=
  ⟨((trigger_preconditions "raindrop" (true, "ok") (false, "x")
      (Except.ok ([], [])) (Except.error "e")
      ⟨[{ id := 1, source := "raindrop", status := "running",
          items_synced := 0, errors := none }], []⟩).1 rfl).1,
   (trigger_preconditions "raindrop" (false, "no token") (false, "x")
      (Except.ok ([], [])) (Except.error "e") ⟨[], []⟩).2 rfl rfl⟩

/-- C5: a run whose candidate stream is fully processed (fetch returned
normally) always ends `completed`, even when some creates raised soft
errors; the persisted `items_synced` is the loop's final count and the
persisted `errors` field is the soft-error list joined with newlines, or
left absent (`none`, the value set at creation) when no soft error
occurred.  Per-record behaviour — a raising create appends exactly one
soft error and later records are still processed — is the per-step case
analysis of `createOrUpdateItem`, iterated by `processItems`. -/
theorem run_completes_with_soft_errors (source : String) (creds : Bool × String)
    (fetchErrors : List String) (items : List Candidate) (s : SysState)
    (hrun : isSyncRunning s.log source = false)
    (hcred : creds.1 = true)
    (hid : ∀ e ∈ s.log, e.id ≤ s.log.length) :
    (sync source creds (Except.ok (fetchErrors, items)) s).2.log =
      s.log ++ [{ id := s.log.length + 1, source := source,
                  status := "completed",
                  items_synced := (processItems
                    { itemsSynced := 0, itemsSkipped := 0,
                      errors := fetchErrors,
                      existingIds := s.store, store := s.store } items).itemsSynced,
                  errors :=
                    if (processItems
                        { itemsSynced := 0, itemsSkipped := 0,
                          errors := fetchErrors,
                          existingIds := s.store, store := s.store } items).errors = []
                    then none
                    else some (String.intercalate "\n"
                      (processItems
                        { itemsSynced := 0, itemsSkipped := 0,
                          errors := fetchErrors,
                          existingIds := s.store, store := s.store } items).errors) }] ∧
    (sync source creds (Except.ok (fetchErrors, items)) s).1.success = true := by
  simp only [sync, hrun, hcred, Bool.not_true, Bool.false_eq_true, if_false]
  refine ⟨?_, trivial⟩
  exact completeSync_fresh s.log source _ _ hid

/-- C5 witness: a three-candidate run where the middle create raises —
the run still completes, counts the two successful creates, and persists
the single soft error; with no soft errors the errors field would stay
`none`. -/
theorem run_completes_with_soft_errors_witness :
    (sync "raindrop" (true, "ok")
        (Except.ok ([], [⟨"a", none⟩, ⟨"x", some "boom"⟩, ⟨"c", none⟩]))
        ⟨[], []⟩).2.log =
      [{ id := 1, source := "raindrop", status := "completed",
         items_synced := 2,
         errors := some "Failed to create item x: boom" }] ∧
    (sync "raindrop" (true, "ok")
        (Except.ok ([], [⟨"a", none⟩, ⟨"x", some "boom"⟩, ⟨"c", none⟩]))
        ⟨[], []⟩).1.success = true := by
  have h := run_completes_with_soft_errors "raindrop" (true, "ok") []
    [⟨"a", none⟩, ⟨"x", some "boom"⟩, ⟨"c", none⟩] ⟨[], []⟩ rfl rfl (by simp)
  refine ⟨?_, h.2⟩
  rw [h.1]
  rfl

/-- C2: in every sync log reachable from the empty table by the
coordinator's operations (guarded trigger, complete, fail — in any order),
at most one row per source has status `running`: the `is_sync_running`
check before `create_log_entry` keeps the count at zero when a new running
row is inserted, and finalization only moves rows out of `running`. -/
theorem single_flight_invariant (log : List SyncEntry)
    (h : ReachableLog log) (source : String) :
    runningCount log source ≤ 1 := by
  induction h with
  | init => simp [runningCount]
  | step hr hs ih =>
      cases hs with
      | trigger s0 hnot =>
          rename_i lpre
          rw [runningCount_append]
          by_cases hss : s0 = source
          · subst hss
            have h0 := (isSyncRunning_eq_false_iff lpre s0).1 hnot
            have h1 : runningCount [newLogEntry lpre s0] s0 ≤ 1 := by
              simp [runningCount, newLogEntry, List.filter]
            omega
          · have h1 : runningCount [newLogEntry lpre s0] source = 0 := by
              simp [runningCount, newLogEntry, List.filter, hss]
            omega
      | complete logId n er hex =>
          exact le_trans
            (runningCount_updateLogEntry_le _ logId "completed" (some n) er
              source (by decide)) ih
      | fail logId msg hex =>
          exact le_trans
            (runningCount_updateLogEntry_le _ logId "failed" none (some msg)
              source (by decide)) ih

/-- C2 witness: the log holding the single running entry produced by one
trigger from the empty table is reachable, and its running count is at
most one. -/
theorem single_flight_invariant_witness :
    runningCount [{ id := 1, source := "raindrop", status := "running",
                    items_synced := 0, errors := none }] "raindrop" ≤ 1 :=
  single_flight_invariant _
    (ReachableLog.step ReachableLog.init
      (LedgerStep.trigger [] "raindrop" rfl)) "raindrop"

/-- C8: once a SyncRun record is terminal it is never mutated again.  For
every coordinator operation applied to a reachable sync log: rows are never
removed; a row whose status is `completed` or `failed` is carried over
completely unchanged (status, items_synced, errors and all); and the only
rows a step changes at all are `running` rows that move to `completed` or
`failed` — so every run performs exactly one transition out of `running`. -/
theorem terminal_entries_immutable (log log' : List SyncEntry)
    (hreach : ReachableLog log) (hstep : LedgerStep log log') :
    log.length ≤ log'.length ∧
    (∀ i (h : i < log.length) (h' : i < log'.length),
      ((log.get ⟨i, h⟩).status = "completed" ∨
        (log.get ⟨i, h⟩).status = "failed") →
      log'.get ⟨i, h'⟩ = log.get ⟨i, h⟩) ∧
    (∀ i (h : i < log.length) (h' : i < log'.length),
      log'.get ⟨i, h'⟩ ≠ log.get ⟨i, h⟩ →
      (log.get ⟨i, h⟩).status = "running" ∧
      ((log'.get ⟨i, h'⟩).status = "completed" ∨
        (log'.get ⟨i, h'⟩).status = "failed")) := by
  have hseq := reachable_idsSequential log hreach
  cases hstep with
  | trigger s0 hnot =>
      refine ⟨by simp, ?_, ?_⟩
      · intro i h h' _
        simp only [List.get_eq_getElem]
        exact List.getElem_append_left h
      · intro i h h' hne
        exfalso
        apply hne
        simp only [List.get_eq_getElem]
        exact List.getElem_append_left h
  | complete logId n er hex =>
      refine ⟨le_of_eq (updateLogEntry_length log logId _ _ _).symm, ?_, ?_⟩
      · intro i h h' hterm
        rcases updateLogEntry_step_analysis log logId "completed" (some n) er
            hseq hex i h h' with heq | ⟨hrun, _⟩
        · exact heq
        · exfalso
          rcases hterm with h1 | h1 <;> rw [h1] at hrun <;>
            exact absurd hrun (by decide)
      · intro i h h' hne
        rcases updateLogEntry_step_analysis log logId "completed" (some n) er
            hseq hex i h h' with heq | ⟨hrun, hst⟩
        · exact absurd heq hne
        · exact ⟨hrun, Or.inl hst⟩
  | fail logId msg hex =>
      refine ⟨le_of_eq (updateLogEntry_length log logId _ _ _).symm, ?_, ?_⟩
      · intro i h h' hterm
        rcases updateLogEntry_step_analysis log logId "failed" none (some msg)
            hseq hex i h h' with heq | ⟨hrun, _⟩
        · exact heq
        · exfalso
          rcases hterm with h1 | h1 <;> rw [h1] at hrun <;>
            exact absurd hrun (by decide)
      · intro i h h' hne
        rcases updateLogEntry_step_analysis log logId "failed" none (some msg)
            hseq hex i h h' with heq | ⟨hrun, hst⟩
        · exact absurd heq hne
        · exact ⟨hrun, Or.inr hst⟩

/-- C8 witness: in a reachable log holding one completed run and one
running run, finalizing the running run leaves the completed row (position
0) untouched. -/
theorem terminal_entries_immutable_witness :
    (completeSync
        [{ id := 1, source := "raindrop", status := "completed",
           items_synced := 3, errors := none },
         { id := 2, source := "raindrop", status := "running",
           items_synced := 0, errors := none }] 2 0 none).get
      ⟨0, by decide⟩ =
      { id := 1, source := "raindrop", status := "completed",
        items_synced := 3, errors := none } := by
  have hreach : ReachableLog
      [{ id := 1, source := "raindrop", status := "completed",
         items_synced := 3, errors := none },
       { id := 2, source := "raindrop", status := "running",
         items_synced := 0, errors := none }] := by
    have h1 : ReachableLog
        [{ id := 1, source := "raindrop", status := "running",
           items_synced := 0, errors := none }] :=
      ReachableLog.step ReachableLog.init
        (LedgerStep.trigger [] "raindrop" rfl)
    have h2 : ReachableLog
        [{ id := 1, source := "raindrop", status := "completed",
           items_synced := 3, errors := none }] :=
      ReachableLog.step h1
        (LedgerStep.complete _ 1 3 none
          ⟨_, List.mem_singleton_self _, rfl, rfl⟩)
    exact ReachableLog.step h2
      (LedgerStep.trigger _ "raindrop" (by decide))
  exact (terminal_entries_immutable _ _ hreach
      (LedgerStep.complete _ 2 0 none
        ⟨_, List.mem_cons_of_mem _ (List.mem_singleton_self _), rfl, rfl⟩)).2.1
    0 (by decide) (by decide) (Or.inl rfl)

/-- C6: triggering the same source twice in a row with the adapter
returning the same candidate list both times, every create of the first
run succeeding, yields `items_ingested == 0` on the second run: the second
run preloads its duplicate index from the store, which by then contains
every fetched `source_id`, so every record is skipped. -/
theorem second_sync_ingests_nothing (source : String) (creds : Bool × String)
    (fe1 fe2 : List String) (items : List Candidate) (s : SysState)
    (hrun : isSyncRunning s.log source = false)
    (hcred : creds.1 = true)
    (hid : ∀ e ∈ s.log, e.id ≤ s.log.length)
    (hok : ∀ c ∈ items, c.createError = none) :
    (sync source creds (Except.ok (fe2, items))
        (sync source creds (Except.ok (fe1, items)) s).2).1.itemsSynced = 0 ∧
    (sync source creds (Except.ok (fe2, items))
        (sync source creds (Except.ok (fe1, items)) s).2).1.success = true := by
  have hrun2 : isSyncRunning
      (sync source creds (Except.ok (fe1, items)) s).2.log source = false := by
    rw [sync_ok_log source creds fe1 items s hrun hcred,
      completeSync_fresh s.log source _ _ hid, isSyncRunning_append, hrun,
      Bool.false_or]
    simp [isSyncRunning]
  have hfst := sync_ok_fst source creds fe2 items
    (sync source creds (Except.ok (fe1, items)) s).2 hrun2 hcred
  rw [hfst]
  refine ⟨?_, rfl⟩
  show (processItems
    { itemsSynced := 0, itemsSkipped := 0, errors := fe2,
      existingIds := (sync source creds (Except.ok (fe1, items)) s).2.store,
      store := (sync source creds (Except.ok (fe1, items)) s).2.store }
    items).itemsSynced = 0
  apply processItems_all_skipped
  intro c hc
  show c.source_id ∈ (sync source creds (Except.ok (fe1, items)) s).2.store
  rw [sync_ok_store source creds fe1 items s hrun hcred]
  exact processItems_covers items _ (fun x hx => hx) hok c hc

/-- C6 witness: two identical back-to-back runs over candidates `a`, `b`
starting from an empty store; the second run ingests nothing and still
succeeds. -/
theorem second_sync_ingests_nothing_witness :
    (sync "raindrop" (true, "ok") (Except.ok ([], [⟨"a", none⟩, ⟨"b", none⟩]))
        (sync "raindrop" (true, "ok")
          (Except.ok ([], [⟨"a", none⟩, ⟨"b", none⟩]))
          ⟨[], []⟩).2).1.itemsSynced = 0 ∧
    (sync "raindrop" (true, "ok") (Except.ok ([], [⟨"a", none⟩, ⟨"b", none⟩]))
        (sync "raindrop" (true, "ok")
          (Except.ok ([], [⟨"a", none⟩, ⟨"b", none⟩]))
          ⟨[], []⟩).2).1.success = true :=
  second_sync_ingests_nothing "raindrop" (true, "ok") [] []
    [⟨"a", none⟩, ⟨"b", none⟩] ⟨[], []⟩ rfl rfl (by simp) (by decide)

/-- C7 counterexample: with the first two attempts timing out and the
third returning 200, exactly 3 calls are made and the call succeeds, but
the backoff slept before retry number 2 is 5 seconds, not
`2 * base_delay = 10`: timeout retries sleep a fixed 5 seconds
(raindrop.py line 237), so the claimed linearly increasing backoff
`attempt_number * base_delay` does not hold for every retryable outcome. -/
theorem retry_backoff_counterexample :
    (fetchPageRetry
        (fun i => if i < 2 then Attempt.timeout else Attempt.http 200)).calls
        = 3 ∧
    (fetchPageRetry
        (fun i => if i < 2 then Attempt.timeout else Attempt.http 200)).outcome
        = RetryOutcome.ok ∧
    (fetchPageRetry
        (fun i => if i < 2 then Attempt.timeout else Attempt.http 200)).waits
        = [5, 5] ∧
    ¬ (fetchPageRetry
        (fun i => if i < 2 then Attempt.timeout else Attempt.http 200)).waits
        = [1 * 5, 2 * 5] := by
  decide

/-- C7 (amended): the retry loop with `MAX_RETRIES = 3` around one page
request (a) makes exactly 3 calls and succeeds when the first two
outcomes are retryable and the third is a 200, with the backoff before
retry number `n` equal to `n * 5` seconds when the retryable outcome was
a transient HTTP status (502/503/504) and a fixed 5 seconds when it was a
timeout; (b) surfaces a fatal (non-retryable, non-200) response
immediately after a single call, without retrying; (c) after 3 retryable
outcomes raises an error that aborts the fetch. -/
theorem retry_policy_behaviour (o : Nat → Attempt) :
    (isRetryableAttempt (o 0) = true → isRetryableAttempt (o 1) = true →
      o 2 = Attempt.http 200 →
      fetchPageRetry o =
        { calls := 3, waits := [waitFor (o 0) 1, waitFor (o 1) 2],
          outcome := RetryOutcome.ok }) ∧
    (∀ c, retryableStatus c = false → c ≠ 200 → o 0 = Attempt.http c →
      fetchPageRetry o =
        { calls := 1, waits := [],
          outcome := RetryOutcome.apiError (some c) }) ∧
    ((∀ i, i < MAX_RETRIES → isRetryableAttempt (o i) = true) →
      (fetchPageRetry o).calls = 3 ∧
      (fetchPageRetry o).outcome ≠ RetryOutcome.ok) := by
  refine ⟨?_, ?_, ?_⟩
  · intro hr0 hr1 h2
    show retryGo o 0 (2 + 1) none = _
    have hbreak := retryGo_succ_break o 2 0 (some 200) 200 h2 (by decide)
    cases ha0 : o 0 with
    | http c =>
        have hc : retryableStatus c = true := by
          simpa [isRetryableAttempt, ha0] using hr0
        rw [retryGo_succ_retryable o 0 2 none c ha0 hc]
        cases ha1 : o 1 with
        | http d =>
            have hd : retryableStatus d = true := by
              simpa [isRetryableAttempt, ha1] using hr1
            rw [retryGo_succ_retryable o 1 1 (some c) d ha1 hd,
              retryGo_succ_break o 2 0 (some d) 200 h2 (by decide)]
            simp [waitFor, ha0, ha1]
        | timeout =>
            rw [retryGo_succ_timeout o 1 1 (some c) ha1 (by decide),
              retryGo_succ_break o 2 0 (some c) 200 h2 (by decide)]
            simp [waitFor, ha0, ha1]
    | timeout =>
        rw [retryGo_succ_timeout o 0 2 none ha0 (by decide)]
        cases ha1 : o 1 with
        | http d =>
            have hd : retryableStatus d = true := by
              simpa [isRetryableAttempt, ha1] using hr1
            rw [retryGo_succ_retryable o 1 1 none d ha1 hd,
              retryGo_succ_break o 2 0 (some d) 200 h2 (by decide)]
            simp [waitFor, ha0, ha1]
        | timeout =>
            rw [retryGo_succ_timeout o 1 1 none ha1 (by decide),
              retryGo_succ_break o 2 0 none 200 h2 (by decide)]
            simp [waitFor, ha0, ha1]
  · intro c hcr hc200 h0
    show retryGo o 0 (2 + 1) none = _
    rw [retryGo_succ_break o 0 2 none c h0 hcr]
    simp [hc200]
  · intro hall
    have h0 := hall 0 (by decide)
    have h1 := hall 1 (by decide)
    have h2 := hall 2 (by decide)
    show (retryGo o 0 (2 + 1) none).calls = 3 ∧
      (retryGo o 0 (2 + 1) none).outcome ≠ RetryOutcome.ok
    cases ha0 : o 0 with
    | http c =>
        have hc : retryableStatus c = true := by
          simpa [isRetryableAttempt, ha0] using h0
        rw [retryGo_succ_retryable o 0 2 none c ha0 hc]
        cases ha1 : o 1 with
        | http d =>
            have hd : retryableStatus d = true := by
              simpa [isRetryableAttempt, ha1] using h1
            rw [retryGo_succ_retryable o 1 1 (some c) d ha1 hd]
            cases ha2 : o 2 with
            | http e =>
                have he : retryableStatus e = true := by
                  simpa [isRetryableAttempt, ha2] using h2
                rw [retryGo_succ_retryable o 2 0 (some d) e ha2 he]
                simp [retryGo, finalCheck, retryable_ne_200 e he]
            | timeout =>
                rw [retryGo_succ_timeout_last o 2 (some d) ha2]
                simp
        | timeout =>
            rw [retryGo_succ_timeout o 1 1 (some c) ha1 (by decide)]
            cases ha2 : o 2 with
            | http e =>
                have he : retryableStatus e = true := by
                  simpa [isRetryableAttempt, ha2] using h2
                rw [retryGo_succ_retryable o 2 0 (some c) e ha2 he]
                simp [retryGo, finalCheck, retryable_ne_200 e he]
            | timeout =>
                rw [retryGo_succ_timeout_last o 2 (some c) ha2]
                simp
    | timeout =>
        rw [retryGo_succ_timeout o 0 2 none ha0 (by decide)]
        cases ha1 : o 1 with
        | http d =>
            have hd : retryableStatus d = true := by
              simpa [isRetryableAttempt, ha1] using h1
            rw [retryGo_succ_retryable o 1 1 none d ha1 hd]
            cases ha2 : o 2 with
            | http e =>
                have he : retryableStatus e = true := by
                  simpa [isRetryableAttempt, ha2] using h2
                rw [retryGo_succ_retryable o 2 0 (some d) e ha2 he]
                simp [retryGo, finalCheck, retryable_ne_200 e he]
            | timeout =>
                rw [retryGo_succ_timeout_last o 2 (some d) ha2]
                simp
        | timeout =>
            rw [retryGo_succ_timeout o 1 1 none ha1 (by decide)]
            cases ha2 : o 2 with
            | http e =>
                have he : retryableStatus e = true := by
                  simpa [isRetryableAttempt, ha2] using h2
                rw [retryGo_succ_retryable o 2 0 none e ha2 he]
                simp [retryGo, finalCheck, retryable_ne_200 e he]
            | timeout =>
                rw [retryGo_succ_timeout_last o 2 none ha2]
                simp

/-- C7 witness: two transient 502/503 responses then a 200 give 3 calls,
success and linear backoffs 5 then 10; a single 401 is surfaced after one
call without retrying; three consecutive 502s exhaust the retries and end
in a fetch-aborting error. -/
theorem retry_policy_behaviour_witness :
    (fetchPageRetry (fun i => if i = 0 then Attempt.http 502
        else if i = 1 then Attempt.http 503 else Attempt.http 200) =
      { calls := 3, waits := [5, 10], outcome := RetryOutcome.ok }) ∧
    (fetchPageRetry (fun _ => Attempt.http 401) =
      { calls := 1, waits := [],
        outcome := RetryOutcome.apiError (some 401) }) ∧
    ((fetchPageRetry (fun _ => Attempt.http 502)).calls = 3 ∧
      (fetchPageRetry (fun _ => Attempt.http 502)).outcome ≠
        RetryOutcome.ok) :=
  ⟨by
    have h := (retry_policy_behaviour (fun i => if i = 0 then Attempt.http 502
      else if i = 1 then Attempt.http 503 else Attempt.http 200)).1
      (by decide) (by decide) (by decide)
    simpa using h,
   (retry_policy_behaviour (fun _ => Attempt.http 401)).2.1 401
     (by decide) (by decide) rfl,
   (retry_policy_behaviour (fun _ => Attempt.http 502)).2.2
     (fun i _ => by decide)⟩

/-- C10: when page `n` is the first page that is empty or shorter than
`MAX_PER_PAGE = 50`, the pagination loop terminates (any iteration budget
above `n` suffices and yields the same result) and returns, in page order
then within-page order, exactly the successfully parsed items of pages
`0..n`, together with one soft error per item that failed to parse — the
rest of such a page is still included.  An empty page `n` is not parsed
and contributes neither items nor errors. -/
theorem pagination_terminates_and_collects (pages : Nat → List RawRaindrop)
    (n : Nat) (hshort : (pages n).length < MAX_PER_PAGE)
    (hfull : ∀ m, m < n → ¬ (pages m).length < MAX_PER_PAGE)
    (fuel : Nat) (hfuel : n < fuel) :
    fetchPagesGo pages 0 fuel =
      some (((List.range (n + 1)).map fun p => pageOks (pages p)).flatten,
            ((List.range (n + 1)).map fun p => pageErrs (pages p)).flatten)
    := by
  have h := fetchPagesGo_spec pages n 0 fuel (by simpa using hshort)
    (fun m hm => by simpa using hfull m hm) hfuel
  simpa using h

/-- C10 witness: one full page of 50 well-formed items followed by a short
page whose first item fails to parse; the loop stops after the short page
and returns the 50 items, the short page's good item, and the one soft
error. -/
theorem pagination_terminates_and_collects_witness :
    fetchPagesGo
      (fun p => if p = 0 then
          List.replicate 50 { rid := "r", parse := Except.ok ⟨"a", none⟩ }
        else
          [{ rid := "x", parse := Except.error "bad" },
           { rid := "y", parse := Except.ok ⟨"b", none⟩ }]) 0 2 =
      some (List.replicate 50 (⟨"a", none⟩ : Candidate) ++ [⟨"b", none⟩],
            ["Failed to parse raindrop x: bad"]) := by
  have h := pagination_terminates_and_collects
    (fun p => if p = 0 then
        List.replicate 50 { rid := "r", parse := Except.ok ⟨"a", none⟩ }
      else
        [{ rid := "x", parse := Except.error "bad" },
         { rid := "y", parse := Except.ok ⟨"b", none⟩ }]) 1
    (by decide)
    (fun m hm => by
      have hm0 : m = 0 := by omega
      subst hm0
      decide) 2 (by decide)
  rw [h]
  decide

end TheSource
